import Mathlib

/-!
Shallow embedding of the `hep-impuls/e-id` video rendering scripts
(`src/html/video.py` and `src/html/video_animated.py`).

Strings are modelled as lists of characters, Python floats as rationals
(every constant the claims touch is exactly representable, and the
arithmetic involved stays exact), Python ints as `Nat`.  The external PIL
text measurement (`draw.textlength` with a style-selected font) is passed
in as a plain function argument, matching its role as an interface-only
collaborator.  The scanning loop of `tokenize_md` can fail to advance on an
unmatched star, so it is embedded with explicit fuel; `none` means the loop
did not finish within the given bound.
-/

namespace EId

/-- Emphasis style of a run, as produced by `tokenize_md`. -/
inductive Style
  | normal
  | bold
  | italic
deriving DecidableEq

/-- A styled token or run: its text and its style. -/
abbrev Tok : Type := List Char × Style

/-- A wrapped line: styled tokens placed on one rendered line. -/
abbrev Line : Type := List Tok

/-- Index of the first occurrence of two consecutive star characters in a
suffix, as in the Python call `text.find` with a two-star pattern. -/
def findSS : List Char → Option Nat
  | '*' :: '*' :: _ => some 0
  | _ :: rest => (findSS rest).map (· + 1)
  | [] => none

/-- Index of the first star character in a suffix, as in the Python call
`text.find` with a one-star pattern. -/
def findStar : List Char → Option Nat
  | [] => none
  | c :: rest => if c = '*' then some 0 else (findStar rest).map (· + 1)

/-- Bold branch of `tokenize_md`: a leading two-star marker with a later
closing two-star marker yields the enclosed text and the suffix after the
closer. -/
def boldSplit : List Char → Option (List Char × List Char)
  | '*' :: '*' :: rest => (findSS rest).map fun k => (rest.take k, rest.drop (k + 2))
  | _ => none

/-- Italic branch of `tokenize_md`: a leading star with a later closing star
yields the enclosed text and the suffix after the closer. -/
def italSplit : List Char → Option (List Char × List Char)
  | '*' :: rest => (findStar rest).map fun k => (rest.take k, rest.drop (k + 1))
  | _ => none

/-- The scanning loop of `tokenize_md` (`video.py` lines 75-93,
`video_animated.py` lines 91-106).  `fuel` bounds the number of loop
iterations; `none` means the loop did not finish within that bound.  Branch
order matches the source: bold, then italic, then a normal run up to the
next star character.  When the current character is a star with no matching
closer, the normal run scan stops at once, so the emitted run is empty and
the position does not advance, exactly as in the source. -/
def tokenize_md_fuel : Nat → List Char → Option (List (List Char × Style))
  | _, [] => some []
  | 0, _ :: _ => none
  | fuel + 1, c :: cs =>
    match boldSplit (c :: cs) with
    | some (txt, rest) => (tokenize_md_fuel fuel rest).map fun rs => (txt, Style.bold) :: rs
    | none =>
      match italSplit (c :: cs) with
      | some (txt, rest) => (tokenize_md_fuel fuel rest).map fun rs => (txt, Style.italic) :: rs
      | none =>
        let n := ((c :: cs).takeWhile fun d => d ≠ '*').length
        (tokenize_md_fuel fuel ((c :: cs).drop n)).map fun rs =>
          ((c :: cs).take n, Style.normal) :: rs

/-- `tokenize_md` run with enough fuel for any terminating scan: every
productive iteration consumes at least one character, so one unit of fuel
per character plus one always suffices when the scan terminates. -/
def tokenize_md (s : String) : Option (List (List Char × Style)) :=
  tokenize_md_fuel (s.toList.length + 1) s.toList

/-- Python `str.isspace`: nonempty and all whitespace. -/
def pyIsSpace (l : List Char) : Bool :=
  !l.isEmpty && l.all fun c => c.isWhitespace

/-- The token split performed by `re.findall` in `wrap_rich` with the
whitespace-or-nonwhitespace pattern: maximal adjacent blocks of characters
agreeing on whitespace status, in order, covering the whole text. -/
def tokens : List Char → List (List Char)
  | [] => []
  | c :: rest =>
    match tokens rest with
    | [] => [[c]]
    | [] :: gs => [c] :: [] :: gs
    | (d :: g) :: gs =>
      if c.isWhitespace = d.isWhitespace then (c :: d :: g) :: gs
      else [c] :: (d :: g) :: gs

/-- All tokens of a run sequence in order, each tagged with the style of the
run it came from, as enumerated by the nested loops of `wrap_rich`. -/
def extract_tokens (runs : List (List Char × Style)) : List Tok :=
  (runs.map fun r => (tokens r.1).map fun t => (t, r.2)).flatten

/-- One step of the greedy accumulation in `wrap_rich`
(`video.py` lines 101-107): a token goes onto the current line when the
accumulated width stays within the limit, or when it is whitespace and the
current line is empty; otherwise the current line is closed and the token
starts a new line. -/
def wrapStep (segW : List Char → Style → ℚ) (maxW : ℚ)
    (acc : List Line × Line × ℚ) (tok : Tok) : List Line × Line × ℚ :=
  if acc.2.2 + segW tok.1 tok.2 ≤ maxW ∨ (pyIsSpace tok.1 = true ∧ acc.2.1 = []) then
    (acc.1, acc.2.1 ++ [tok], acc.2.2 + segW tok.1 tok.2)
  else
    (acc.1 ++ [acc.2.1], [tok], segW tok.1 tok.2)

/-- `wrap_rich` (`video.py` lines 95-109, `video_animated.py` lines
108-121): fold the greedy step over all tokens, then append the pending
line when it is nonempty.  `segW` is the external width measurement for a
token under the style-selected font. -/
def wrap_rich (segW : List Char → Style → ℚ) (runs : List (List Char × Style))
    (maxW : ℚ) : List Line :=
  if ((extract_tokens runs).foldl (wrapStep segW maxW) ([], [], 0)).2.1 = [] then
    ((extract_tokens runs).foldl (wrapStep segW maxW) ([], [], 0)).1
  else
    ((extract_tokens runs).foldl (wrapStep segW maxW) ([], [], 0)).1 ++
      [((extract_tokens runs).foldl (wrapStep segW maxW) ([], [], 0)).2.1]

/-- Python per-character `str.isdigit`, true for characters with the
Unicode digit property.  The full Unicode table is external to the
scripts; this embedding covers the ASCII range exactly and, of the
non-ASCII digit-property characters, exactly the two that the theorems
below evaluate: the superscript two (U+00B2, digit property but not a
decimal digit) and the Arabic-Indic three (U+0663, a decimal digit of
value 3).  Every theorem in this file evaluates the predicate only on
characters where it agrees with Python. -/
def pyCharIsDigit (c : Char) : Bool :=
  c.isDigit || c = '²' || c = '٣'

/-- Decimal value of one character for Python `int`: the ASCII digits and
the Unicode decimal digits carry their value, digit-property characters
without a decimal value (such as the superscript two) carry none and make
`int` raise ValueError.  Beyond ASCII, this covers exactly the two
non-ASCII characters the theorems evaluate. -/
def pyCharDecimalVal (c : Char) : Option Nat :=
  if c.isDigit then some (c.toNat - '0'.toNat)
  else if c = '٣' then some 3
  else none

/-- Python `str.isdigit`: nonempty and all digit-property characters. -/
def pyIsDigitStr (l : List Char) : Bool :=
  !l.isEmpty && l.all pyCharIsDigit

/-- Python `int` on a digit-property string: the positional decimal value
when every character is a decimal digit, and `none` (a raised ValueError)
when some character has the digit property but no decimal value. -/
def pyIntVal (l : List Char) : Option Nat :=
  l.foldl
    (fun acc c =>
      match acc, pyCharDecimalVal c with
      | some a, some d => some (a * 10 + d)
      | _, _ => none)
    (some 0)

/-- One timestamp component of `parse_ts`: Python `int` guarded by
`str.isdigit`.  A component failing the guard defaults to 0; a component
passing the guard is handed to `int`, which yields its decimal value or
raises ValueError on digit-property characters without a decimal value
(the guard is too weak to make the conversion safe). -/
def compVal (l : List Char) : Except String Nat :=
  if pyIsDigitStr l then
    match pyIntVal l with
    | some v => Except.ok v
    | none => Except.error "ValueError"
  else Except.ok 0

/-- Python `str.replace` of colon by underscore (single characters). -/
def replaceColon (l : List Char) : List Char :=
  l.map fun c => if c = ':' then '_' else c

/-- Python `str.split` on the underscore character: the empty string gives
one empty part, and every underscore opens a new part. -/
def splitUnderscore : List Char → List (List Char)
  | [] => [[]]
  | c :: rest =>
    let r := splitUnderscore rest
    if c = '_' then [] :: r else (c :: r.headD []) :: r.tail

/-- `parse_ts` (`video.py` lines 70-73, `video_animated.py` lines 86-89):
normalize colons to underscores, split on underscores, pad with two zero
components, read the first component as minutes and the second as seconds,
each defaulting to 0 when it fails the isdigit guard.  The minutes
component is evaluated first, as in the source expression, so its
ValueError propagates before the seconds component is considered. -/
def parse_ts (ts : String) : Except String Nat :=
  let parts := splitUnderscore (replaceColon ts.toList) ++ [['0'], ['0']]
  match compVal (parts.headD []), compVal ((parts.drop 1).headD []) with
  | Except.ok m, Except.ok s => Except.ok (m * 60 + s)
  | Except.error e, _ => Except.error e
  | _, Except.error e => Except.error e

/-- `MIN_SLIDE_SEC = 1.0` from both scripts. -/
def MIN_SLIDE_SEC : ℚ := 1

/-- `durations_from_timestamps` (`video.py` lines 248-253,
`video_animated.py` lines 281-286): each slide lasts until the next
timestamp, the last until the end of the audio, and every duration is
clamped from below by `MIN_SLIDE_SEC`. -/
def durations_from_timestamps : List ℚ → ℚ → List ℚ
  | [], _ => []
  | [t], audio_len => [max MIN_SLIDE_SEC (audio_len - t)]
  | t :: t2 :: rest, audio_len =>
    max MIN_SLIDE_SEC (t2 - t) :: durations_from_timestamps (t2 :: rest) audio_len

/-- `MAX_LINES = 4` from both scripts. -/
def MAX_LINES : Nat := 4

/-- Explanation line height: `int(expl_size * 1.3)` from the layout loop. -/
def lh_expl_of (es : Nat) : Nat := es * 13 / 10

/-- Text line height: `int(lines_size * 1.25)` from the layout loop. -/
def lh_txt_of (ls : Nat) : Nat := ls * 5 / 4

/-- One evaluation of the loop body height computation of
`render_slide_image` (`video.py` lines 181-197) and `layout_right_column`
(`video_animated.py` lines 159-171): callout height
(explanation line height times the clamped number of wrapped explanation
lines, plus 16 of padding), a gap of 10, and the sum over the first
`MAX_LINES` line blocks of text line height times the clamped number of
wrapped lines.  `segW` gives the external width measurement for a token
under the font of a given size, `explRuns` and `lineRuns` are the tokenized
explanation and line texts (tokenization does not depend on the font
sizes), and the explanation is wrapped at `iw - 20` for the callout inner
padding. -/
def slideTotalH (segW : Nat → List Char → Style → ℚ) (iw : ℚ)
    (explRuns : List (List Char × Style)) (lineRuns : List (List (List Char × Style)))
    (es ls : Nat) : Nat :=
  lh_expl_of es * max 1 (wrap_rich (segW es) explRuns (iw - 20)).length + 16 + 10 +
    ((lineRuns.take MAX_LINES).map
      (fun rs => lh_txt_of ls * max 1 (wrap_rich (segW ls) rs iw).length)).sum

/-- One shrink of a font size in the auto-fit loop:
`max(min_size, int(size * 0.94))` with `min_size = 12`. -/
def shrink (s : Nat) : Nat := max 12 (s * 94 / 100)

/-- The auto-fit loop of `render_slide_image` (`video.py` lines 170-201)
and `layout_right_column` (`video_animated.py` lines 152-181), over the
total-height function of the two font sizes: stop when the content fits the
available height `ih` or both sizes are at the floor of 12, otherwise
shrink both sizes by the 0.94 factor (floored at 12) and retry.  `fuel`
bounds the number of retries; `none` means the bound was reached with the
loop still running. -/
def autofit_loop (totalH : Nat → Nat → Nat) (ih : Nat) : Nat → Nat → Nat → Option (Nat × Nat)
  | 0, es, ls =>
    if totalH es ls ≤ ih ∨ (es ≤ 12 ∧ ls ≤ 12) then some (es, ls) else none
  | fuel + 1, es, ls =>
    if totalH es ls ≤ ih ∨ (es ≤ 12 ∧ ls ≤ 12) then some (es, ls)
    else autofit_loop totalH ih fuel (shrink es) (shrink ls)

/-- `CALLOUT_DELAY = 0.20` from `video_animated.py`. -/
def CALLOUT_DELAY : ℚ := 1 / 5

/-- `TEXT_START_DELAY = 3.5` from `video_animated.py`. -/
def TEXT_START_DELAY : ℚ := 7 / 2

/-- `TEXT_STAGGER = 1.40` from `video_animated.py`. -/
def TEXT_STAGGER : ℚ := 7 / 5

/-- Clip duration of the callout layer in `build_slide_clip`
(`video_animated.py` line 241). -/
def callout_clip_dur (duration : ℚ) : ℚ :=
  max (1 / 10) (duration - CALLOUT_DELAY)

/-- Start delay of text block number `i` in `build_slide_clip`
(`video_animated.py` line 257). -/
def text_block_delay (i : Nat) : ℚ :=
  TEXT_START_DELAY + i * TEXT_STAGGER

/-- Clip duration of text block number `i` in `build_slide_clip`
(`video_animated.py` line 258). -/
def text_clip_dur (duration : ℚ) (i : Nat) : ℚ :=
  max (1 / 10) (duration - text_block_delay i)

/-- The timeline phase of `main` in `video_animated.py` (lines 340-344):
with the sorted parsed timestamps and the audio length in hand, the run is
aborted when there is a first timestamp and it lies beyond the audio
length; otherwise the slide durations are produced for rendering. -/
def animated_timeline (ts : List ℚ) (alen : ℚ) : Except String (List ℚ) :=
  if ts ≠ [] ∧ alen < ts.headD 0 then
    Except.error "First slide timestamp is beyond the audio duration."
  else
    Except.ok (durations_from_timestamps ts alen)

theorem tokenize_md_fuel_stuck (fuel : Nat) :
    tokenize_md_fuel fuel ['*', 'b'] = none := by
  induction fuel with
  | zero => rfl
  | succ n ih =>
    have hstep : tokenize_md_fuel (n + 1) ['*', 'b'] =
        (tokenize_md_fuel n ['*', 'b']).map
          (fun rs => (([] : List Char), Style.normal) :: rs) := rfl
    rw [hstep, ih]
    rfl

/-- Claim C1: the source tokenizer is claimed to terminate on every input,
in particular on the unterminated marker input made of the letter a, a
space, a lone star and the letter b, producing that text back as a single
normal run.  The code violates this: at the lone star neither the bold nor
the italic branch finds a closer, the normal scan stops immediately at the
star, and the position never advances, so the scan runs forever.  Formally,
under no amount of fuel does the embedded scanning loop finish on this
input. -/
theorem tokenize_md_hangs_on_lone_star (fuel : Nat) :
    tokenize_md_fuel fuel ("a *b".toList) = none := by
  have h0 : ("a *b".toList : List Char) = ['a', ' ', '*', 'b'] := rfl
  rw [h0]
  match fuel with
  | 0 => rfl
  | n + 1 =>
    have hstep : tokenize_md_fuel (n + 1) ['a', ' ', '*', 'b'] =
        (tokenize_md_fuel n ['*', 'b']).map
          (fun rs => ((['a', ' '] : List Char), Style.normal) :: rs) := rfl
    rw [hstep, tokenize_md_fuel_stuck]
    rfl

/-- Claim C6: tokenizing the string made of the letter a, a space, b in
double-star markers, a space and the letter c yields exactly a normal run,
a bold run with the markers stripped, and a normal run; and a single-star
span becomes an italic run. -/
theorem tokenize_md_examples :
    tokenize_md "a **b** c" =
      some [(['a', ' '], Style.normal), (['b'], Style.bold), ([' ', 'c'], Style.normal)] ∧
    tokenize_md "*i* n" =
      some [(['i'], Style.italic), ([' ', 'n'], Style.normal)] := by
  constructor
  · decide
  · decide

/-- Claim C5: `parse_ts` is claimed never to fail, every non-numeric or
missing component defaulting to 0.  The code violates this: the isdigit
guard admits digit-property characters without a decimal value, on which
the int conversion raises ValueError, so a minutes component consisting of
the superscript two crashes the parse.  The theorem evaluates the embedded
parse to that error on the failing input, shows that a component made of
an Arabic-Indic decimal digit parses with its value 3 rather than
defaulting to 0, and confirms the claimed behaviour on the all-ASCII
worked examples, including the bare-number-as-minutes quirk. -/
theorem parse_ts_valueerror :
    parse_ts "²_00" = Except.error "ValueError" ∧
    parse_ts "٣_0" = Except.ok 180 ∧
    parse_ts "1_30" = Except.ok 90 ∧ parse_ts "1:30" = Except.ok 90 ∧
    parse_ts "90" = Except.ok 5400 ∧ parse_ts "_45" = Except.ok 45 ∧
    parse_ts "abc" = Except.ok 0 ∧ parse_ts "" = Except.ok 0 := by
  refine ⟨?_, ?_, ?_, ?_, ?_, ?_, ?_, ?_⟩ <;> rfl

theorem durations_length (ts : List ℚ) (L : ℚ) :
    (durations_from_timestamps ts L).length = ts.length := by
  induction ts with
  | nil => rfl
  | cons t rest ih =>
    cases rest with
    | nil => rfl
    | cons t2 rest2 =>
      simp only [durations_from_timestamps, List.length_cons]
      simpa using ih

theorem durations_getD_mid :
    ∀ (ts : List ℚ) (L : ℚ) (i : Nat), i + 1 < ts.length →
      (durations_from_timestamps ts L).getD i 0 =
        max MIN_SLIDE_SEC (ts.getD (i + 1) 0 - ts.getD i 0)
  | [], _, i, h => by simp at h
  | [t], _, i, h => by simp at h
  | t :: t2 :: rest, L, 0, _ => by
    simp [durations_from_timestamps]
  | t :: t2 :: rest, L, i + 1, h => by
    have ih := durations_getD_mid (t2 :: rest) L i (by simpa using h)
    simpa [durations_from_timestamps] using ih

theorem durations_getD_last :
    ∀ (ts : List ℚ) (L : ℚ), ts ≠ [] →
      (durations_from_timestamps ts L).getD (ts.length - 1) 0 =
        max MIN_SLIDE_SEC (L - ts.getD (ts.length - 1) 0)
  | [], _, h => absurd rfl h
  | [t], L, _ => by simp [durations_from_timestamps]
  | t :: t2 :: rest, L, _ => by
    have ih := durations_getD_last (t2 :: rest) L (by simp)
    simpa [durations_from_timestamps] using ih

theorem durations_ge_min :
    ∀ (ts : List ℚ) (L : ℚ) (d : ℚ), d ∈ durations_from_timestamps ts L →
      MIN_SLIDE_SEC ≤ d
  | [], _, _, h => by simp [durations_from_timestamps] at h
  | [t], L, d, h => by
    simp only [durations_from_timestamps, List.mem_singleton] at h
    subst h
    exact le_max_left _ _
  | t :: t2 :: rest, L, d, h => by
    simp only [durations_from_timestamps, List.mem_cons] at h
    rcases h with h | h
    · subst h
      exact le_max_left _ _
    · exact durations_ge_min (t2 :: rest) L d h

/-- Claim C3: `durations_from_timestamps` keeps the length of the timestamp
list; before the last index each duration is the clamped difference of the
two neighbouring timestamps, the last is the clamped remainder of the audio
length; the two worked examples hold and every produced duration is at
least `MIN_SLIDE_SEC`. -/
theorem durations_spec (ts : List ℚ) (L : ℚ) :
    (durations_from_timestamps ts L).length = ts.length ∧
    (∀ i, i + 1 < ts.length →
      (durations_from_timestamps ts L).getD i 0 =
        max MIN_SLIDE_SEC (ts.getD (i + 1) 0 - ts.getD i 0)) ∧
    (ts ≠ [] →
      (durations_from_timestamps ts L).getD (ts.length - 1) 0 =
        max MIN_SLIDE_SEC (L - ts.getD (ts.length - 1) 0)) ∧
    (∀ d ∈ durations_from_timestamps ts L, MIN_SLIDE_SEC ≤ d) ∧
    durations_from_timestamps [0, 5, 12] 20 = [5, 7, 8] ∧
    durations_from_timestamps [0, 5] 4 = [5, MIN_SLIDE_SEC] := by
  refine ⟨durations_length ts L, fun i h => durations_getD_mid ts L i h,
    durations_getD_last ts L, fun d hd => durations_ge_min ts L d hd, ?_, ?_⟩
  · simp only [durations_from_timestamps, MIN_SLIDE_SEC]
    norm_num [max_def]
  · simp only [durations_from_timestamps, MIN_SLIDE_SEC]
    norm_num [max_def]

theorem durations_spec_witness :
    (durations_from_timestamps [0, 5, 12] 20).getD 0 0 =
      max MIN_SLIDE_SEC
        ((([0, 5, 12] : List ℚ).getD 1 0) - (([0, 5, 12] : List ℚ).getD 0 0)) :=
  (durations_spec [0, 5, 12] 20).2.1 0 (by decide)

theorem wrap_fold_content (segW : List Char → Style → ℚ) (maxW : ℚ) :
    ∀ (toks : List Tok) (lines : List Line) (cur : Line) (curW : ℚ),
      ((toks.foldl (wrapStep segW maxW) (lines, cur, curW)).1.flatten ++
        (toks.foldl (wrapStep segW maxW) (lines, cur, curW)).2.1) =
      lines.flatten ++ (cur ++ toks) := by
  intro toks
  induction toks with
  | nil =>
    intro lines cur curW
    simp
  | cons t ts ih =>
    intro lines cur curW
    rw [List.foldl_cons]
    by_cases hc : curW + segW t.1 t.2 ≤ maxW ∨ (pyIsSpace t.1 = true ∧ cur = [])
    · rw [show wrapStep segW maxW (lines, cur, curW) t =
          (lines, cur ++ [t], curW + segW t.1 t.2) from by
        unfold wrapStep
        rw [if_pos hc]]
      rw [ih]
      simp
    · rw [show wrapStep segW maxW (lines, cur, curW) t =
          (lines ++ [cur], [t], segW t.1 t.2) from by
        unfold wrapStep
        rw [if_neg hc]]
      rw [ih]
      simp

/-- Claim C10: the wrapper conserves content: concatenating the wrapped
lines, in order, gives back exactly the styled token sequence extracted
from the input runs, for every width measurement, every run sequence and
every maximum width; no token is dropped, duplicated, split or
reordered. -/
theorem wrap_rich_preserves_tokens (segW : List Char → Style → ℚ)
    (runs : List (List Char × Style)) (maxW : ℚ) :
    (wrap_rich segW runs maxW).flatten = extract_tokens runs := by
  unfold wrap_rich
  have h := wrap_fold_content segW maxW (extract_tokens runs) [] [] 0
  simp only [List.flatten_nil, List.nil_append] at h
  split
  · next hnil =>
    rw [hnil, List.append_nil] at h
    exact h
  · next hnil =>
    rw [List.flatten_append]
    simpa using h

/-- Claim C7 counterexample: on the empty run sequence the wrapper returns
zero lines, not at least one line as claimed. -/
theorem wrap_rich_empty_counterexample :
    (wrap_rich (fun _ _ => 0) ([] : List (List Char × Style)) 100).length = 0 := by
  rfl

theorem extract_tokens_eq_nil (runs : List (List Char × Style))
    (h : ∀ r ∈ runs, tokens r.1 = []) : extract_tokens runs = [] := by
  induction runs with
  | nil => rfl
  | cons r rs ih =>
    unfold extract_tokens
    simp only [List.map_cons, List.flatten_cons]
    rw [h r (by simp)]
    have ih2 := ih fun x hx => h x (by simp [hx])
    unfold extract_tokens at ih2
    simp [ih2]

/-- Claim C7 amended: for empty input (an empty run sequence, or runs whose
texts contain no tokens) the wrapper returns the empty list of lines, and
the downstream height computation clamps the line count with a lower bound
of one, so the height math is unaffected; the source contains no division
by a line count at all. -/
theorem wrap_rich_empty_amended (segW : List Char → Style → ℚ) (maxW : ℚ)
    (runs : List (List Char × Style)) (h : ∀ r ∈ runs, tokens r.1 = []) :
    wrap_rich segW runs maxW = [] ∧
    max 1 (wrap_rich segW runs maxW).length = 1 := by
  have hwrap : wrap_rich segW runs maxW = [] := by
    unfold wrap_rich
    rw [extract_tokens_eq_nil runs h]
    rfl
  exact ⟨hwrap, by rw [hwrap]; rfl⟩

theorem wrap_rich_empty_amended_witness :
    wrap_rich (fun _ _ => 0) [(([] : List Char), Style.normal)] 50 = [] ∧
    max 1 (wrap_rich (fun _ _ => 0) [(([] : List Char), Style.normal)] 50).length = 1 :=
  wrap_rich_empty_amended (fun _ _ => 0) 50 [(([] : List Char), Style.normal)]
    (by decide)

theorem shrink_lt (s : Nat) (h : 12 < s) : shrink s < s := by
  have h1 : s * 94 / 100 < s := Nat.div_lt_of_lt_mul (by omega)
  exact Nat.max_lt.mpr ⟨h, h1⟩

theorem shrink_of_le_12 (s : Nat) (h : s ≤ 12) : shrink s = 12 := by
  have h1 : s * 94 / 100 ≤ 12 * 94 / 100 :=
    Nat.div_le_div_right (Nat.mul_le_mul_right _ h)
  exact max_eq_left (by omega)

/-- Claim C2: over any total-height function of the two font sizes and any
available height, the auto-fit loop terminates within a number of retries
bounded by the distance of the two starting sizes from the floor of 12: the
fueled loop with that much fuel returns a result; when the content already
fits at the starting sizes it stops on the first iteration with the sizes
unchanged; and when no sizes ever fit, the result has both sizes at the
floor. -/
theorem autofit_terminates (totalH : Nat → Nat → Nat) (ih : Nat) :
    ∀ (fuel es ls : Nat), (es - 12) + (ls - 12) ≤ fuel →
      ((autofit_loop totalH ih fuel es ls).isSome = true ∧
        (totalH es ls ≤ ih → autofit_loop totalH ih fuel es ls = some (es, ls)) ∧
        ((∀ a b, ih < totalH a b) →
          ∀ es' ls', autofit_loop totalH ih fuel es ls = some (es', ls') →
            es' ≤ 12 ∧ ls' ≤ 12)) := by
  intro fuel
  induction fuel with
  | zero =>
    intro es ls hf
    have h12 : es ≤ 12 ∧ ls ≤ 12 := by omega
    refine ⟨?_, ?_, ?_⟩
    · simp only [autofit_loop]
      rw [if_pos (Or.inr h12)]
      rfl
    · intro _
      simp only [autofit_loop]
      rw [if_pos (Or.inr h12)]
    · intro _ es' ls' h
      simp only [autofit_loop] at h
      rw [if_pos (Or.inr h12), Option.some.injEq, Prod.mk.injEq] at h
      obtain ⟨rfl, rfl⟩ := h
      exact h12
  | succ n ihn =>
    intro es ls hf
    by_cases hc : totalH es ls ≤ ih ∨ (es ≤ 12 ∧ ls ≤ 12)
    · refine ⟨?_, ?_, ?_⟩
      · simp only [autofit_loop]
        rw [if_pos hc]
        rfl
      · intro _
        simp only [autofit_loop]
        rw [if_pos hc]
      · intro hnever es' ls' h
        simp only [autofit_loop] at h
        rw [if_pos hc, Option.some.injEq, Prod.mk.injEq] at h
        obtain ⟨rfl, rfl⟩ := h
        rcases hc with hfit | h12
        · exact absurd hfit (not_le.mpr (hnever es ls))
        · exact h12
    · have h1 : ¬ totalH es ls ≤ ih := fun h => hc (Or.inl h)
      have h2 : ¬ (es ≤ 12 ∧ ls ≤ 12) := fun h => hc (Or.inr h)
      have k1 : 12 ≤ shrink es := le_max_left _ _
      have k2 : 12 ≤ shrink ls := le_max_left _ _
      have d1 : shrink es < es ∨ (es ≤ 12 ∧ shrink es = 12) := by
        by_cases hx : 12 < es
        · exact Or.inl (shrink_lt es hx)
        · exact Or.inr ⟨by omega, shrink_of_le_12 es (by omega)⟩
      have d2 : shrink ls < ls ∨ (ls ≤ 12 ∧ shrink ls = 12) := by
        by_cases hx : 12 < ls
        · exact Or.inl (shrink_lt ls hx)
        · exact Or.inr ⟨by omega, shrink_of_le_12 ls (by omega)⟩
      have hbound : (shrink es - 12) + (shrink ls - 12) ≤ n := by
        rcases d1 with h3 | ⟨h3a, h3b⟩ <;> rcases d2 with h4 | ⟨h4a, h4b⟩ <;> omega
      have trip := ihn (shrink es) (shrink ls) hbound
      refine ⟨?_, ?_, ?_⟩
      · simp only [autofit_loop]
        rw [if_neg hc]
        exact trip.1
      · intro hfit
        exact absurd hfit h1
      · intro hnever es' ls' h
        simp only [autofit_loop] at h
        rw [if_neg hc] at h
        exact trip.2.2 hnever es' ls' h

theorem autofit_terminates_witness :
    (autofit_loop (fun _ _ => 1000) 0 14 20 18).isSome = true ∧
    ((1000 : Nat) ≤ 0 → autofit_loop (fun _ _ => 1000) 0 14 20 18 = some (20, 18)) ∧
    ((∀ _ _ : Nat, 0 < (1000 : Nat)) →
      ∀ es' ls', autofit_loop (fun _ _ => 1000) 0 14 20 18 = some (es', ls') →
        es' ≤ 12 ∧ ls' ≤ 12) :=
  autofit_terminates (fun _ _ => 1000) 0 14 20 18 (by decide)

theorem autofit_loop_exit (totalH : Nat → Nat → Nat) (ih : Nat) :
    ∀ (fuel es0 ls0 es ls : Nat),
      autofit_loop totalH ih fuel es0 ls0 = some (es, ls) →
      (totalH es ls ≤ ih ∨ (es ≤ 12 ∧ ls ≤ 12)) := by
  intro fuel
  induction fuel with
  | zero =>
    intro es0 ls0 es ls h
    simp only [autofit_loop] at h
    split at h
    · next hcond =>
      rw [Option.some.injEq, Prod.mk.injEq] at h
      obtain ⟨rfl, rfl⟩ := h
      exact hcond
    · exact absurd h (by simp)
  | succ n ihn =>
    intro es0 ls0 es ls h
    simp only [autofit_loop] at h
    split at h
    · next hcond =>
      rw [Option.some.injEq, Prod.mk.injEq] at h
      obtain ⟨rfl, rfl⟩ := h
      exact hcond
    · exact ihn _ _ _ _ h

/-- Claim C4: whenever the auto-fit loop exits, the sizes it returns make
the total block height, namely the callout height (explanation line height
of thirteen tenths of the explanation size, times the clamped number of
wrapped explanation lines, plus 16) plus the gap of 10 plus the sum of the
line block heights (text line height of five fourths of the lines size,
times the clamped number of wrapped lines), fit within the available
height, or both returned sizes are at the configured minimum of 12. -/
theorem layout_exit_invariant (segW : Nat → List Char → Style → ℚ) (iw : ℚ)
    (explRuns : List (List Char × Style))
    (lineRuns : List (List (List Char × Style)))
    (ih fuel es0 ls0 es ls : Nat)
    (h : autofit_loop (slideTotalH segW iw explRuns lineRuns) ih fuel es0 ls0 =
      some (es, ls)) :
    slideTotalH segW iw explRuns lineRuns es ls ≤ ih ∨ (es ≤ 12 ∧ ls ≤ 12) :=
  autofit_loop_exit (slideTotalH segW iw explRuns lineRuns) ih fuel es0 ls0 es ls h

theorem layout_exit_invariant_witness :
    slideTotalH (fun _ _ _ => 0) 542 [] [] 20 18 ≤ 452 ∨ (20 ≤ 12 ∧ 18 ≤ 12) :=
  layout_exit_invariant (fun _ _ _ => 0) 542 [] [] 452 0 20 18 20 18 (by decide)

/-- Claim C8: in the animated composer, the callout layer clip lasts the
slide duration minus `CALLOUT_DELAY` floored at one tenth, text block
number i lasts the slide duration minus its staggered start delay floored
at one tenth, and both durations are strictly positive for every slide
duration, even when the delay reaches or exceeds it. -/
theorem animated_layer_durations_positive (d : ℚ) (i : Nat) :
    callout_clip_dur d = max (1 / 10) (d - CALLOUT_DELAY) ∧
    text_clip_dur d i = max (1 / 10) (d - (TEXT_START_DELAY + i * TEXT_STAGGER)) ∧
    0 < callout_clip_dur d ∧ 0 < text_clip_dur d i := by
  refine ⟨rfl, rfl, ?_, ?_⟩
  · exact lt_of_lt_of_le (by norm_num) (le_max_left _ _)
  · exact lt_of_lt_of_le (by norm_num) (le_max_left _ _)

/-- Claim C9: in the animated variant, for every nonempty sorted timestamp
list whose first entry exceeds the audio length, the timeline phase aborts
with an error, producing no slide durations and hence no rendered slide. -/
theorem first_timestamp_check_aborts (ts : List ℚ) (alen : ℚ)
    (hne : ts ≠ []) (hgt : alen < ts.headD 0) :
    animated_timeline ts alen =
      Except.error "First slide timestamp is beyond the audio duration." := by
  unfold animated_timeline
  rw [if_pos ⟨hne, hgt⟩]

theorem first_timestamp_check_aborts_witness :
    animated_timeline [5] 4 =
      Except.error "First slide timestamp is beyond the audio duration." :=
  first_timestamp_check_aborts [5] 4 (by decide) (by decide)

end EId
